import Mathlib

/-!
Verification of the command-execution and live-session core of the
switch-manager application (`main.py`), as a shallow embedding in Lean.

The embedding covers:
* `StreamingOutputScreen.stream_output` (the chunk-read loop, its closing
  flag, the cancellation paths and `proc.wait()`),
* `SwitchManagerApp.run_ping` / `run_batch_ping` (the fan-out probe
  coordinator built on `asyncio.gather(..., return_exceptions=True)`),
* `launch_external_ssh` (construction of the remote-shell command),
* the row accessors used by the table, the filter and the probes, and
* `SwitchManagerApp.action_execute_command` (guards before dispatch).
-/

namespace SwitchManager

/-- A CSV row as loaded by `csv.DictReader`: an association list from
column name to value; `rowGet r k d` is Python's `row.get(k, d)`. -/
abbrev Row := List (String × String)

/-- `row.get(k, d)`: first value bound to `k`, else the default `d`. -/
def rowGet (r : Row) (k : String) (d : String) : String :=
  match List.lookup k r with
  | some v => v
  | none => d

/-! ## Streaming session (`StreamingOutputScreen.stream_output`)

The read loop is

```
while True:
    if self._closed: break
    line = await proc.stdout.readline()
    if not line: break
    self.output += line.decode()
    widget.update(self.output)
```

wrapped in `try ... except asyncio.CancelledError: proc.kill(); raise`,
followed (outside the `try`) by `await proc.wait()`.

The embedding makes the schedule explicit: `lines` is the sequence of
lines the process emits, `closedAt = some k` means the `_closed` flag is
observed as set at the flag check of iteration `k` and at every later
check (escape was pressed before that check), and `CancelPoint` says at
which await point, if any, the task is cancelled by `on_unmount`. -/

/-- Where, if anywhere, the streaming task receives `CancelledError`:
nowhere, during the `j`-th `readline` await, or during `proc.wait()`. -/
inductive CancelPoint where
  | none
  | atRead (j : Nat)
  | atWait
deriving DecidableEq, Repr

/-- How the streaming task ended. -/
inductive StreamEnd where
  /-- `readline` returned empty and `proc.wait()` resolved. -/
  | natural
  /-- the `_closed` flag was observed and `proc.wait()` resolved. -/
  | flagBreak
  /-- `CancelledError` during `readline`: `proc.kill()` ran, then re-raise. -/
  | cancelledInLoop
  /-- `CancelledError` while awaiting `proc.wait()` (outside the `try`). -/
  | cancelledAtWait
deriving DecidableEq, Repr

/-- Observable outcome of one run of `stream_output`. -/
structure StreamResult where
  /-- final value of `self.output` (the accumulated text pushed to the surface) -/
  output : String
  /-- number of non-empty lines read and appended -/
  linesRead : Nat
  /-- whether `proc.kill()` was called -/
  killed : Bool
  /-- whether `await proc.wait()` resolved -/
  waitResolved : Bool
  ending : StreamEnd
deriving DecidableEq, Repr

/-- Is the `_closed` flag seen as set at the check of iteration `i`? -/
def flagObserved (closedAt : Option Nat) (i : Nat) : Bool :=
  match closedAt with
  | some k => decide (k ≤ i)
  | none => false

/-- `await proc.wait()` after the loop broke (line 84, outside the `try`):
resolves unless the cancellation is delivered right there. -/
def finishWait (cancel : CancelPoint) (acc : String) (n : Nat) (e : StreamEnd) :
    StreamResult :=
  if cancel = CancelPoint.atWait then
    { output := acc, linesRead := n, killed := false, waitResolved := false,
      ending := StreamEnd.cancelledAtWait }
  else
    { output := acc, linesRead := n, killed := false, waitResolved := true,
      ending := e }

/-- The read loop of `stream_output`: `rest` are the lines not yet
produced by `readline`, `i` is the iteration index, `acc` is
`self.output`.  Each iteration first checks the `_closed` flag, then
awaits `readline` (where a cancellation may land: `proc.kill()` and
re-raise), then either stops on an empty read or appends the line. -/
def streamLoop (closedAt : Option Nat) (cancel : CancelPoint) :
    List String → Nat → String → StreamResult
  | [], i, acc =>
    if flagObserved closedAt i then
      finishWait cancel acc i StreamEnd.flagBreak
    else if cancel = CancelPoint.atRead i then
      { output := acc, linesRead := i, killed := true, waitResolved := false,
        ending := StreamEnd.cancelledInLoop }
    else
      finishWait cancel acc i StreamEnd.natural
  | l :: rest, i, acc =>
    if flagObserved closedAt i then
      finishWait cancel acc i StreamEnd.flagBreak
    else if cancel = CancelPoint.atRead i then
      { output := acc, linesRead := i, killed := true, waitResolved := false,
        ending := StreamEnd.cancelledInLoop }
    else
      streamLoop closedAt cancel rest (i + 1) (acc ++ l)

/-- `StreamingOutputScreen.stream_output`, run over the process's emitted
`lines` with the given closing-flag and cancellation schedule. -/
def stream_output (lines : List String) (closedAt : Option Nat)
    (cancel : CancelPoint) : StreamResult :=
  streamLoop closedAt cancel lines 0 ""

/-- Concatenation of a list of lines, in order. -/
def concatLines (ls : List String) : String :=
  ls.foldr (fun a b => a ++ b) ""

/-! ## Batch probe coordinator (`run_ping` / `run_batch_ping`) -/

/-- Outcome of `asyncio.create_subprocess_exec("ping", "-c", "1", ip)`
followed by `communicate()`: either the process spawned and produced the
given stdout and stderr bytes, or the spawn itself raised (e.g.
`FileNotFoundError`) with string rendering `msg`. -/
inductive PingOutcome where
  | spawned (stdout stderr : String)
  | spawnFailed (msg : String)
deriving DecidableEq, Repr

/-- `SwitchManagerApp.run_ping`: returns the headed stdout if stdout is
non-empty, else the headed stderr; a spawn failure propagates as an
exception (`Except.error`), to be captured by the coordinator's
`gather(..., return_exceptions=True)`. -/
def run_ping (probe : String → String → PingOutcome) (hostname ip : String) :
    Except String String :=
  match probe hostname ip with
  | PingOutcome.spawnFailed msg => Except.error msg
  | PingOutcome.spawned out err =>
      if out = "" then
        Except.ok (">> " ++ hostname ++ " (" ++ ip ++ "):\n" ++ err)
      else
        Except.ok (">> " ++ hostname ++ " (" ++ ip ++ "):\n" ++ out)

/-- Python's `str.strip()`: remove leading and trailing whitespace. -/
def pyStrip (s : String) : String :=
  String.mk
    (((s.data.dropWhile Char.isWhitespace).reverse.dropWhile
        Char.isWhitespace).reverse)

/-- `row.get("IP", "").strip()` as used by `run_batch_ping` and by
`action_execute_command`: only the exact key `"IP"`, no fallback. -/
def batchIp (r : Row) : String := pyStrip (rowGet r "IP" "")

/-- `row.get("Name", row.get("name", ""))`. -/
def rowName (r : Row) : String := rowGet r "Name" (rowGet r "name" "")

/-- The rows for which `run_batch_ping` dispatches a probe task: those
whose stripped `"IP"` value is non-empty, in original filtered order. -/
def dispatched (rows : List Row) : List Row :=
  rows.filter (fun r => decide (¬ batchIp r = ""))

/-- `str(result)` applied to one slot of the `gather` result: the captured
output for a task that returned, the exception's rendering otherwise. -/
def exceptStr : Except String String → String
  | Except.ok s => s
  | Except.error e => e

/-- `asyncio.gather(*tasks, return_exceptions=True)` modelled as a slot
array: one slot per dispatched task, and tasks complete in an arbitrary
completion order `schedule` (a list of task indices), each writing its own
result into its own slot.  `gather` returns the slots once all tasks have
completed. -/
def gatherFill {α : Type} (results : List α) (default : α)
    (schedule : List Nat) : List α :=
  schedule.foldl (fun acc j => acc.set j (results.getD j default))
    (List.replicate results.length default)

/-- A completion schedule is complete when every dispatched task index
eventually completes. -/
abbrev completeSchedule (n : Nat) (schedule : List Nat) : Prop :=
  ∀ j, j < n → j ∈ schedule

/-- Events on the display surface during `run_batch_ping`, in order. -/
inductive BatchEvent where
  | showPlaceholder (text : String)
  | dispatchProbe (hostname ip : String)
  | updateSurface (text : String)
deriving DecidableEq, Repr

def isUpdate : BatchEvent → Bool
  | BatchEvent.updateSurface _ => true
  | _ => false

/-- Observable outcome of one `run_batch_ping` call. -/
structure BatchRun where
  events : List BatchEvent
  results : List (Except String String)
  combined_output : String
deriving Repr

/-- The tasks `run_batch_ping` creates, one per dispatched row, in
dispatch order. -/
def batchTasks (rows : List Row) (probe : String → String → PingOutcome) :
    List (Except String String) :=
  (dispatched rows).map (fun r => run_ping probe (rowName r) (batchIp r))

/-- `results = await asyncio.gather(*tasks, return_exceptions=True)`. -/
def batchResults (rows : List Row) (probe : String → String → PingOutcome)
    (schedule : List Nat) : List (Except String String) :=
  gatherFill (batchTasks rows probe) (Except.error "") schedule

/-- `SwitchManagerApp.run_batch_ping`: push the placeholder screen, create
one task per row with a non-empty stripped `"IP"`, gather them all with
`return_exceptions=True`, join the rendered results with `"\n\n"` and
update the placeholder screen once. -/
def run_batch_ping (rows : List Row) (probe : String → String → PingOutcome)
    (schedule : List Nat) : BatchRun :=
  { events := BatchEvent.showPlaceholder "Running batch ping, please wait..."
      :: ((dispatched rows).map
            (fun r => BatchEvent.dispatchProbe (rowName r) (batchIp r))
          ++ [BatchEvent.updateSurface (String.intercalate "\n\n"
                ((batchResults rows probe schedule).map exceptStr))])
  , results := batchResults rows probe schedule
  , combined_output := String.intercalate "\n\n"
      ((batchResults rows probe schedule).map exceptStr) }

/-! ## Remote-shell command construction (`launch_external_ssh`) -/

/-- The ssh destination `f"{username}@{ip}"` with
`username = os.environ.get("SM_USER", "")`. -/
def sshDestination (smUser : Option String) (ip : String) : String :=
  smUser.getD "" ++ "@" ++ ip

/-- The Linux branch of `launch_external_ssh`: the argv handed to
`subprocess.Popen` (the macOS and Windows branches build the same
`f"{username}@{ip}"` destination). -/
def launch_external_ssh (smUser : Option String) (ip : String) : List String :=
  ["xterm", "-e", "-fa", "DejaVuSansMono", "ssh", sshDestination smUser ip]

/-! ## Row accessors of the UI layer (`update_table`, `get_value`, filter) -/

/-- The `IP` cell as shown by `update_table`:
`row.get("IP", row.get("ip", ""))`. -/
def tableIp (r : Row) : String := rowGet r "IP" (rowGet r "ip" "")

/-- `get_value(row, col_index)`, the sort-key accessor. -/
def get_value (r : Row) (colIndex : Nat) : String :=
  if colIndex = 0 then rowGet r "Name" (rowGet r "name" "")
  else if colIndex = 1 then rowGet r "IP" (rowGet r "ip" "")
  else if colIndex = 2 then rowGet r "subnet" (rowGet r "Subnet" "")
  else if colIndex = 3 then rowGet r "aliases" (rowGet r "Alias" "")
  else if colIndex = 4 then rowGet r "comment" (rowGet r "Comment" "")
  else ""

/-- The IP text the search filter matches tokens against:
`row.get("IP", row.get("ip", "")).lower()` in `on_input_changed`. -/
def filterIp (r : Row) : String := (rowGet r "IP" (rowGet r "ip" "")).toLower

/-- `row_data.get("IP", "").strip()` in `action_execute_command`
(single-target dispatch): exact key `"IP"` only, no lowercase fallback. -/
def execIp (r : Row) : String := pyStrip (rowGet r "IP" "")

/-! ## `action_execute_command` -/

/-- `"\n".join(f"{k}: {v}" for k, v in row_data.items())`. -/
def detailsText (r : Row) : String :=
  String.intercalate "\n" (r.map (fun kv => kv.1 ++ ": " ++ kv.2))

/-- The externally visible effect `action_execute_command` performs after
its guards pass. -/
inductive ExecEffect where
  | exitApp
  | sshLaunch (argv : List String)
  | pushStream (cmd : List String)
  | runBatch
  | pushDetails (text : String)
  | pushHelp
deriving DecidableEq, Repr

/-- `SwitchManagerApp.action_execute_command`: `table` is `none` when the
`DataTable` query fails, `some none` when `cursor_row` is `None`, and
`some (some i)` when the cursor is on row `i`; `filtered` is
`self.filtered_data`.  Returns `none` exactly when a guard aborts before
any process launch or screen push. -/
def action_execute_command (table : Option (Option Nat)) (filtered : List Row)
    (command : String) (smUser : Option String) : Option ExecEffect :=
  match table with
  | none => none
  | some none => none
  | some (some row_index) =>
    if filtered.isEmpty then none
    else if filtered.length ≤ row_index then none
    else
      let row_data := filtered.getD row_index []
      let ip := pyStrip (rowGet row_data "IP" "")
      if command = "exit" then some ExecEffect.exitApp
      else if command = "ssh" then
        some (ExecEffect.sshLaunch (launch_external_ssh smUser ip))
      else if command = "ping" then
        some (ExecEffect.pushStream ["ping", "-c", "4", ip])
      else if command = "traceroute" then
        some (ExecEffect.pushStream ["traceroute", ip])
      else if command = "batch ping" then some ExecEffect.runBatch
      else if command = "details" then
        some (ExecEffect.pushDetails (detailsText row_data))
      else if command = "help" then some ExecEffect.pushHelp
      else none

/-! ## Interactive PTY Session (spec-modelled)

The spec's Interactive PTY Session component (PTY pair allocation,
background reader, dual-descriptor teardown) has no counterpart in
`src/main.py`, whose ssh action only launches an external terminal
emulator.  The following state machine is modelled from the spec. -/

/-- Modelled from the spec: the state of one Interactive PTY Session —
the PTY descriptor pair, the background read task, the attached process,
and the host-notification flag.  `main.py` contains no PTY session; this
models the spec's §4.3 lifecycle. -/
structure PtySession where
  readTaskActive : Bool
  masterCloses : Nat
  slaveCloses : Nat
  procTerminated : Bool
  hostCloseRequested : Bool
deriving DecidableEq, Repr

/-- Modelled from the spec: a freshly started session — background reader
running, no descriptor closed yet. -/
def ptyStart : PtySession :=
  { readTaskActive := true, masterCloses := 0, slaveCloses := 0,
    procTerminated := false, hostCloseRequested := false }

/-- Modelled from the spec: teardown cancels the background read task if
still active and awaits it, then closes both descriptors, each close
attempted unconditionally (a failing close — `mFails`/`sFails` — is
swallowed and never skips the other close). -/
def ptyTeardown (s : PtySession) ( _mFails _sFails : Bool) : PtySession :=
  let s1 := if s.readTaskActive then { s with readTaskActive := false } else s
  let s2 := { s1 with masterCloses := s1.masterCloses + 1 }
  { s2 with slaveCloses := s2.slaveCloses + 1 }

/-- Modelled from the spec: what triggers the close of a PTY session —
the background reader hitting end-of-stream (remote process exited), or
the explicit escape close request. -/
inductive PtyTrigger where
  | endOfStream
  | escapeClose
deriving DecidableEq, Repr

/-- Modelled from the spec: the close path.  On end-of-stream the reader
terminates itself and requests the host close the session (no escape key
involved); on escape the process is forcibly terminated first.  Either way
teardown then runs once. -/
def ptyClose (trigger : PtyTrigger) (s : PtySession) (mFails sFails : Bool) :
    PtySession :=
  match trigger with
  | PtyTrigger.endOfStream =>
      ptyTeardown { s with readTaskActive := false, hostCloseRequested := true }
        mFails sFails
  | PtyTrigger.escapeClose =>
      ptyTeardown { s with procTerminated := true, hostCloseRequested := true }
        mFails sFails

/-! ## Concrete fixtures used by the witnesses -/

/-- Concrete row set: `A` with an `IP`, `B` with an empty `IP`, `C` with
an `IP`. -/
def sampleRows : List Row :=
  [[("Name", "A"), ("IP", "10.0.0.1")],
   [("Name", "B"), ("IP", "")],
   [("Name", "C"), ("IP", "10.0.0.2")]]

/-- Concrete probe behaviour: `A`'s probe succeeds, `C`'s process exits
with no stdout (only stderr). -/
def sampleProbe ( _hostname ip : String) : PingOutcome :=
  if ip = "10.0.0.2" then PingOutcome.spawned "" "ping: timeout\n"
  else PingOutcome.spawned ("64 bytes from " ++ ip ++ "\n") ""

theorem concatLines_nil : concatLines [] = "" := rfl

theorem concatLines_cons (a : String) (l : List String) :
    concatLines (a :: l) = a ++ concatLines l := rfl

theorem finishWait_output (cancel : CancelPoint) (acc : String) (n : Nat)
    (e : StreamEnd) : (finishWait cancel acc n e).output = acc := by
  unfold finishWait; split <;> rfl

theorem finishWait_linesRead (cancel : CancelPoint) (acc : String) (n : Nat)
    (e : StreamEnd) : (finishWait cancel acc n e).linesRead = n := by
  unfold finishWait; split <;> rfl

theorem finishWait_killed (cancel : CancelPoint) (acc : String) (n : Nat)
    (e : StreamEnd) : (finishWait cancel acc n e).killed = false := by
  unfold finishWait; split <;> rfl

/-- Structural invariant of the read loop: the accumulated output grows by
exactly the prefix of lines read, in order, and the count of lines read
never exceeds what the process emitted. -/
theorem streamLoop_spec (closedAt : Option Nat) (cancel : CancelPoint) :
    ∀ (rest : List String) (i : Nat) (acc : String),
      (streamLoop closedAt cancel rest i acc).output
        = acc ++ concatLines
            (rest.take ((streamLoop closedAt cancel rest i acc).linesRead - i))
      ∧ i ≤ (streamLoop closedAt cancel rest i acc).linesRead
      ∧ (streamLoop closedAt cancel rest i acc).linesRead - i ≤ rest.length := by
  intro rest
  induction rest with
  | nil =>
    intro i acc
    rw [streamLoop]
    split
    · simp [finishWait_output, finishWait_linesRead, concatLines_nil,
        String.append_empty]
    · split
      · simp [concatLines_nil, String.append_empty]
      · simp [finishWait_output, finishWait_linesRead, concatLines_nil,
          String.append_empty]
  | cons l rest ih =>
    intro i acc
    rw [streamLoop]
    split
    · simp [finishWait_output, finishWait_linesRead, concatLines_nil,
        String.append_empty]
    · split
      · simp [concatLines_nil, String.append_empty]
      · obtain ⟨h1, h2, h3⟩ := ih (i + 1) (acc ++ l)
        refine ⟨?_, by omega, by simp only [List.length_cons]; omega⟩
        have hn : (streamLoop closedAt cancel rest (i + 1) (acc ++ l)).linesRead - i
            = ((streamLoop closedAt cancel rest (i + 1) (acc ++ l)).linesRead - (i + 1)) + 1 := by
          omega
        rw [hn, List.take_succ_cons, concatLines_cons, h1,
          String.append_assoc]

/-- With no close request and no cancellation, every emitted line is read,
the process is never killed, and `proc.wait()` resolves. -/
theorem streamLoop_complete :
    ∀ (rest : List String) (i : Nat) (acc : String),
      (streamLoop none CancelPoint.none rest i acc).linesRead = i + rest.length
      ∧ (streamLoop none CancelPoint.none rest i acc).waitResolved = true
      ∧ (streamLoop none CancelPoint.none rest i acc).killed = false := by
  intro rest
  induction rest with
  | nil =>
    intro i acc
    rw [streamLoop]
    simp [flagObserved, finishWait]
  | cons l rest ih =>
    intro i acc
    rw [streamLoop]
    have h := ih (i + 1) (acc ++ l)
    have h1 := h.1
    have hflag : flagObserved none i = false := rfl
    rw [hflag]
    simp only [Bool.false_eq_true, if_false,
      if_neg (by simp : ¬(CancelPoint.none = CancelPoint.atRead i))]
    exact ⟨by simp only [List.length_cons]; omega, h.2.1, h.2.2⟩

/-- On the flag-close path (`_closed` set before check `k`, no task
cancellation) the loop reads at most `k` lines, never calls
`proc.kill()`, and `proc.wait()` resolves. -/
theorem streamLoop_flag (k : Nat) :
    ∀ (rest : List String) (i : Nat) (acc : String), i ≤ k →
      (streamLoop (some k) CancelPoint.none rest i acc).linesRead
        = min k (i + rest.length)
      ∧ (streamLoop (some k) CancelPoint.none rest i acc).killed = false
      ∧ (streamLoop (some k) CancelPoint.none rest i acc).waitResolved = true := by
  intro rest
  induction rest with
  | nil =>
    intro i acc hik
    rw [streamLoop]
    by_cases hk : k ≤ i
    · simp only [flagObserved, decide_eq_true_eq, if_pos hk, finishWait]
      simp only [if_neg (by simp : ¬(CancelPoint.none = CancelPoint.atWait))]
      refine ⟨?_, by trivial, by trivial⟩
      simp only [List.length_nil]
      omega
    · simp only [flagObserved, decide_eq_true_eq, if_neg hk, finishWait,
        if_neg (by simp : ¬(CancelPoint.none = CancelPoint.atRead i)),
        if_neg (by simp : ¬(CancelPoint.none = CancelPoint.atWait))]
      refine ⟨?_, by trivial, by trivial⟩
      simp only [List.length_nil]
      omega
  | cons l rest ih =>
    intro i acc hik
    rw [streamLoop]
    by_cases hk : k ≤ i
    · simp only [flagObserved, decide_eq_true_eq, if_pos hk, finishWait]
      simp only [if_neg (by simp : ¬(CancelPoint.none = CancelPoint.atWait))]
      refine ⟨?_, by trivial, by trivial⟩
      simp only [List.length_cons]
      omega
    · have h := ih (i + 1) (acc ++ l) (by omega)
      simp only [flagObserved, decide_eq_true_eq, if_neg hk,
        if_neg (by simp : ¬(CancelPoint.none = CancelPoint.atRead i))]
      refine ⟨?_, h.2.1, h.2.2⟩
      rw [h.1]
      simp only [List.length_cons]
      omega

/-- `proc.kill()` is called exactly on the cancelled-in-loop ending, and
`proc.wait()` resolves exactly on the natural and flag-break endings. -/
theorem streamLoop_wait_kill (closedAt : Option Nat) (cancel : CancelPoint) :
    ∀ (rest : List String) (i : Nat) (acc : String),
      ((streamLoop closedAt cancel rest i acc).killed = true
        ↔ (streamLoop closedAt cancel rest i acc).ending
            = StreamEnd.cancelledInLoop)
      ∧ ((streamLoop closedAt cancel rest i acc).waitResolved = true
        ↔ ((streamLoop closedAt cancel rest i acc).ending = StreamEnd.natural
            ∨ (streamLoop closedAt cancel rest i acc).ending
                = StreamEnd.flagBreak)) := by
  intro rest
  induction rest with
  | nil =>
    intro i acc
    rw [streamLoop]
    split
    · unfold finishWait; split <;> simp
    · split
      · simp
      · unfold finishWait; split <;> simp
  | cons l rest ih =>
    intro i acc
    rw [streamLoop]
    split
    · unfold finishWait; split <;> simp
    · split
      · simp
      · exact ih (i + 1) (acc ++ l)

/-- **C1** (confirmed): for every Streaming Session run, the accumulated
output pushed to the display surface is the exact concatenation, in
emission order, of the lines read from the process — a prefix of the
emitted lines — and when neither the close flag nor a cancellation
interrupts the run, it is the concatenation of all emitted lines, none
skipped or reordered. -/
theorem C1_streaming_output_exact_concat (lines : List String)
    (closedAt : Option Nat) (cancel : CancelPoint) :
    (stream_output lines closedAt cancel).output
      = concatLines (lines.take ((stream_output lines closedAt cancel).linesRead))
    ∧ (stream_output lines closedAt cancel).linesRead ≤ lines.length
    ∧ (closedAt = none → cancel = CancelPoint.none →
        (stream_output lines closedAt cancel).output = concatLines lines) := by
  obtain ⟨h1, h2, h3⟩ := streamLoop_spec closedAt cancel lines 0 ""
  refine ⟨?_, by simpa using h3, ?_⟩
  · simpa [stream_output, String.empty_append] using h1
  · rintro rfl rfl
    have hc := (streamLoop_complete lines 0 "").1
    have : (stream_output lines none CancelPoint.none).linesRead = lines.length := by
      simpa [stream_output] using hc
    rw [stream_output] at *
    rw [this] at h1
    simpa [String.empty_append, Nat.sub_zero, List.take_length] using h1

/-- Witness for C1 at a concrete input: with no close request and no
cancellation, the output is the concatenation of all emitted lines. -/
theorem C1_streaming_witness :
    (stream_output ["one\n", "two\n"] none CancelPoint.none).output
      = concatLines ["one\n", "two\n"] :=
  (C1_streaming_output_exact_concat ["one\n", "two\n"] none
    CancelPoint.none).2.2 rfl rfl

/-- **C2 counterexample**: escape after the first of four lines — the loop
observes the flag and stops reading, but no termination is ever requested
(`killed = false`): the code only `await proc.wait()`s for natural exit.
This refutes the claim that the session "requests termination of the
underlying process" on the flag path. -/
theorem C2_counterexample :
    (stream_output ["seq=1\n", "seq=2\n", "seq=3\n", "seq=4\n"] (some 1)
        CancelPoint.none).killed = false
    ∧ (stream_output ["seq=1\n", "seq=2\n", "seq=3\n", "seq=4\n"] (some 1)
        CancelPoint.none).linesRead = 1
    ∧ (stream_output ["seq=1\n", "seq=2\n", "seq=3\n", "seq=4\n"] (some 1)
        CancelPoint.none).waitResolved = true := by
  decide

/-- **C2** (amended): after a close request sets the closing flag before
check `k`, the read loop observes the flag within one chunk-read iteration
and stops reading (no chunk is appended past that point: at most `k`
lines are read), but instead of requesting termination the code awaits
the process's natural exit (`killed = false`, `waitResolved = true`);
termination is requested only if the task is cancelled during a read. -/
theorem C2_amended_flag_close (lines : List String) (k : Nat) :
    (stream_output lines (some k) CancelPoint.none).linesRead
      = min k lines.length
    ∧ (stream_output lines (some k) CancelPoint.none).output
        = concatLines (lines.take (min k lines.length))
    ∧ (stream_output lines (some k) CancelPoint.none).killed = false
    ∧ (stream_output lines (some k) CancelPoint.none).waitResolved = true := by
  obtain ⟨hn, hk, hw⟩ := streamLoop_flag k lines 0 "" (Nat.zero_le k)
  have hn' : (stream_output lines (some k) CancelPoint.none).linesRead
      = min k lines.length := by simpa [stream_output] using hn
  refine ⟨hn', ?_, hk, hw⟩
  obtain ⟨h1, _, _⟩ := streamLoop_spec (some k) CancelPoint.none lines 0 ""
  rw [stream_output] at *
  rw [hn'] at h1
  simpa [String.empty_append] using h1

/-- **C3 counterexample**: host teardown cancels the in-flight read after
one line — `proc.kill()` runs but `await proc.wait()` is never reached
(it sits outside the `try`), so the session closes with `wait` unresolved,
refuting the claim that `wait` resolves on every path to Closed. -/
theorem C3_counterexample :
    (stream_output ["PING 10.0.0.1\n"] none (CancelPoint.atRead 1)).waitResolved
      = false
    ∧ (stream_output ["PING 10.0.0.1\n"] none (CancelPoint.atRead 1)).killed
      = true := by
  decide

/-- **C3** (amended): `proc.wait()` resolves exactly on the uncancelled
paths (natural exhaustion and flag-break close); when the read task is
cancelled during a chunk read the process is killed and `wait` is never
awaited, and when it is cancelled during the wait itself neither the kill
nor the wait resolution happens before the session is closed. -/
theorem C3_amended_wait_paths (lines : List String) (closedAt : Option Nat)
    (cancel : CancelPoint) :
    ((stream_output lines closedAt cancel).waitResolved = true
      ↔ ((stream_output lines closedAt cancel).ending = StreamEnd.natural
          ∨ (stream_output lines closedAt cancel).ending = StreamEnd.flagBreak))
    ∧ ((stream_output lines closedAt cancel).killed = true
      ↔ (stream_output lines closedAt cancel).ending
          = StreamEnd.cancelledInLoop) := by
  obtain ⟨h1, h2⟩ := streamLoop_wait_kill closedAt cancel lines 0 ""
  exact ⟨h2, h1⟩

theorem gatherFill_aux {α : Type} (results : List α) (d : α) :
    ∀ (schedule : List Nat) (acc : List α), acc.length = results.length →
      (schedule.foldl (fun acc j => acc.set j (results.getD j d)) acc).length
          = results.length
      ∧ ∀ j : Nat, j < results.length →
          (j ∈ schedule ∨ acc[j]? = results[j]?) →
          (schedule.foldl (fun acc j => acc.set j (results.getD j d)) acc)[j]?
            = results[j]? := by
  intro schedule
  induction schedule with
  | nil =>
    intro acc hlen
    refine ⟨hlen, ?_⟩
    intro j hj hor
    rcases hor with h | h
    · exact absurd h (List.not_mem_nil j)
    · simpa using h
  | cons s rest ih =>
    intro acc hlen
    have hlen' : (acc.set s (results.getD s d)).length = results.length := by
      rw [List.length_set]; exact hlen
    obtain ⟨ihl, ihj⟩ := ih (acc.set s (results.getD s d)) hlen'
    refine ⟨by simpa using ihl, ?_⟩
    intro j hj hor
    simp only [List.foldl_cons]
    apply ihj j hj
    rcases hor with h | h
    · rcases List.mem_cons.mp h with rfl | hmem
      · by_cases hmem : j ∈ rest
        · exact Or.inl hmem
        · right
          rw [List.getElem?_set_eq_of_lt _ (by omega : j < acc.length),
            List.getD_eq_getElem results d (by omega),
            List.getElem?_eq_getElem (by omega : j < results.length)]
      · exact Or.inl hmem
    · by_cases hsj : s = j
      · subst hsj
        right
        rw [List.getElem?_set_eq_of_lt _ (by omega : s < acc.length),
          List.getD_eq_getElem results d (by omega),
          List.getElem?_eq_getElem (by omega : s < results.length)]
      · right
        rw [List.getElem?_set_ne hsj]
        exact h

/-- If every task index eventually completes, `gather` returns each task's
own result in its own (dispatch-order) slot: the slot array equals the
task-result list, whatever the completion order was. -/
theorem gatherFill_complete {α : Type} (results : List α) (d : α)
    (schedule : List Nat) (h : completeSchedule results.length schedule) :
    gatherFill results d schedule = results := by
  obtain ⟨hl, hj⟩ := gatherFill_aux results d schedule
      (List.replicate results.length d) (by simp)
  apply List.ext_getElem?
  intro j
  by_cases hjn : j < results.length
  · exact hj j hjn (Or.inl (h j hjn))
  · have hg : (gatherFill results d schedule).length = results.length := hl
    rw [List.getElem?_eq_none (by omega : (gatherFill results d schedule).length ≤ j),
      List.getElem?_eq_none (by omega : results.length ≤ j)]

theorem dispatched_length (rows : List Row) :
    (dispatched rows).length
      = rows.length - (rows.filter (fun r => decide (batchIp r = ""))).length := by
  induction rows with
  | nil => rfl
  | cons r rows ih =>
    have hle := List.length_filter_le (fun r => decide (batchIp r = "")) rows
    by_cases h : batchIp r = ""
    · rw [dispatched, List.filter_cons, if_neg (by simp [h])]
      rw [List.filter_cons, if_pos (by simp [h])]
      rw [dispatched] at ih
      simp only [List.length_cons]
      omega
    · rw [dispatched, List.filter_cons, if_pos (by simp [h])]
      rw [List.filter_cons, if_neg (by simp [h])]
      rw [dispatched] at ih
      simp only [List.length_cons]
      omega

/-- With a complete schedule the batch results are the per-row task
results, in dispatch order. -/
theorem batchResults_eq (rows : List Row)
    (probe : String → String → PingOutcome) (schedule : List Nat)
    (h : completeSchedule (dispatched rows).length schedule) :
    batchResults rows probe schedule
      = (dispatched rows).map (fun r => run_ping probe (rowName r) (batchIp r)) := by
  rw [batchResults,
    gatherFill_complete (batchTasks rows probe) (Except.error "") schedule
      (by simpa [batchTasks] using h)]
  rfl

/-- **C4** (confirmed): a batch run over `N` filtered rows of which `K`
have an empty (stripped) `"IP"` produces exactly `N − K` probe results —
rows without a usable address contribute none — and the report lists the
results in the original dispatch order of the rows, independent of the
completion order of the probes. -/
theorem C4_batch_count_and_order (rows : List Row)
    (probe : String → String → PingOutcome) (schedule : List Nat)
    (h : completeSchedule (dispatched rows).length schedule) :
    (run_batch_ping rows probe schedule).results.length
      = rows.length - (rows.filter (fun r => decide (batchIp r = ""))).length
    ∧ (run_batch_ping rows probe schedule).results
        = (dispatched rows).map (fun r => run_ping probe (rowName r) (batchIp r)) := by
  have hr : (run_batch_ping rows probe schedule).results
      = (dispatched rows).map (fun r => run_ping probe (rowName r) (batchIp r)) :=
    batchResults_eq rows probe schedule h
  exact ⟨by rw [hr, List.length_map, dispatched_length], hr⟩

/-- Witness for C4: three rows of which one has an empty address, probes
completing in reverse dispatch order. -/
theorem C4_batch_witness :
    completeSchedule (dispatched sampleRows).length [1, 0]
    ∧ (run_batch_ping sampleRows sampleProbe [1, 0]).results.length
        = sampleRows.length
          - (sampleRows.filter (fun r => decide (batchIp r = ""))).length := by
  have hc : completeSchedule (dispatched sampleRows).length [1, 0] := by
    intro j hj
    have h2 : (dispatched sampleRows).length = 2 := by decide
    rw [h2] at hj
    interval_cases j <;> decide
  exact ⟨hc, (C4_batch_count_and_order sampleRows sampleProbe [1, 0] hc).1⟩


/-- **C5** (confirmed): in a batch run each dispatched probe yields exactly
one result slot, a function of that probe's own outcome only: a failed
spawn contributes the exception's rendering (the coordinator's
`return_exceptions=True` captures it instead of propagating), a process
with empty stdout contributes the headed stderr text, and changing any
other probe's outcome leaves the slot untouched — so a single failing
probe never aborts or alters its siblings or the batch. -/
theorem C5_probe_failure_isolation (rows : List Row)
    (p₁ p₂ : String → String → PingOutcome) (schedule : List Nat)
    (h : completeSchedule (dispatched rows).length schedule) :
    (run_batch_ping rows p₁ schedule).results
      = (dispatched rows).map (fun r => run_ping p₁ (rowName r) (batchIp r))
    ∧ (∀ hn ip msg, p₁ hn ip = PingOutcome.spawnFailed msg →
        run_ping p₁ hn ip = Except.error msg)
    ∧ (∀ hn ip err, p₁ hn ip = PingOutcome.spawned "" err →
        run_ping p₁ hn ip = Except.ok (">> " ++ hn ++ " (" ++ ip ++ "):\n" ++ err))
    ∧ (∀ (j : Nat) (r : Row), (dispatched rows)[j]? = some r →
        p₁ (rowName r) (batchIp r) = p₂ (rowName r) (batchIp r) →
        (run_batch_ping rows p₁ schedule).results[j]?
          = (run_batch_ping rows p₂ schedule).results[j]?) := by
  have h1 : (run_batch_ping rows p₁ schedule).results
      = (dispatched rows).map (fun r => run_ping p₁ (rowName r) (batchIp r)) :=
    batchResults_eq rows p₁ schedule h
  have h2 : (run_batch_ping rows p₂ schedule).results
      = (dispatched rows).map (fun r => run_ping p₂ (rowName r) (batchIp r)) :=
    batchResults_eq rows p₂ schedule h
  refine ⟨h1, ?_, ?_, ?_⟩
  · intro hn ip msg hp
    rw [run_ping, hp]
  · intro hn ip err hp
    rw [run_ping, hp]
    rfl
  · intro j r hjr hag
    have hfun : run_ping p₁ (rowName r) (batchIp r)
        = run_ping p₂ (rowName r) (batchIp r) := by
      rw [run_ping, run_ping, hag]
    rw [h1, h2, List.getElem?_map, List.getElem?_map, hjr, Option.map_some',
      Option.map_some', hfun]

/-- Witness for C5: with `A` succeeding and `C` producing no stdout, `C`'s
slot carries the headed stderr text and `A`'s slot is what it would be if
`C` had succeeded instead. -/
theorem C5_probe_witness :
    completeSchedule (dispatched sampleRows).length [1, 0]
    ∧ (run_batch_ping sampleRows sampleProbe [1, 0]).results
        = (dispatched sampleRows).map
            (fun r => run_ping sampleProbe (rowName r) (batchIp r)) := by
  have hc : completeSchedule (dispatched sampleRows).length [1, 0] := by
    intro j hj
    have h2 : (dispatched sampleRows).length = 2 := by decide
    rw [h2] at hj
    interval_cases j <;> decide
  exact ⟨hc,
    (C5_probe_failure_isolation sampleRows sampleProbe sampleProbe [1, 0] hc).1⟩

/-- **C6** (confirmed): the batch run's surface trace starts with the
in-progress placeholder, pushed before any probe dispatch; it contains
exactly one surface update, as its final event, carrying the whole
assembled report: the per-row blocks in dispatch order joined by the
`"\n\n"` separator (one blank line between blocks), independent of the
completion order. -/
theorem C6_placeholder_then_single_update (rows : List Row)
    (probe : String → String → PingOutcome) (schedule : List Nat)
    (h : completeSchedule (dispatched rows).length schedule) :
    (run_batch_ping rows probe schedule).events
      = BatchEvent.showPlaceholder "Running batch ping, please wait..."
        :: ((dispatched rows).map
              (fun r => BatchEvent.dispatchProbe (rowName r) (batchIp r))
            ++ [BatchEvent.updateSurface (String.intercalate "\n\n"
                  ((dispatched rows).map (fun r =>
                    exceptStr (run_ping probe (rowName r) (batchIp r)))))])
    ∧ (run_batch_ping rows probe schedule).events.filter isUpdate
        = [BatchEvent.updateSurface (String.intercalate "\n\n"
            ((dispatched rows).map (fun r =>
              exceptStr (run_ping probe (rowName r) (batchIp r)))))] := by
  have hres : (batchResults rows probe schedule).map exceptStr
      = (dispatched rows).map
          (fun r => exceptStr (run_ping probe (rowName r) (batchIp r))) := by
    rw [batchResults_eq rows probe schedule h, List.map_map]
    rfl
  have hev : (run_batch_ping rows probe schedule).events
      = BatchEvent.showPlaceholder "Running batch ping, please wait..."
        :: ((dispatched rows).map
              (fun r => BatchEvent.dispatchProbe (rowName r) (batchIp r))
            ++ [BatchEvent.updateSurface (String.intercalate "\n\n"
                  ((dispatched rows).map (fun r =>
                    exceptStr (run_ping probe (rowName r) (batchIp r)))))]) := by
    rw [run_batch_ping]
    rw [hres]
  refine ⟨hev, ?_⟩
  rw [hev, List.filter_cons, List.filter_append]
  have hplaceholder : isUpdate
      (BatchEvent.showPlaceholder "Running batch ping, please wait...") = false := rfl
  have hdisp : ((dispatched rows).map
      (fun r => BatchEvent.dispatchProbe (rowName r) (batchIp r))).filter isUpdate
      = [] := by
    rw [List.filter_eq_nil_iff]
    intro e he
    obtain ⟨r, _, rfl⟩ := List.mem_map.mp he
    simp [isUpdate]
  rw [hplaceholder, hdisp]
  simp [isUpdate]

/-- Witness for C6: the concrete batch over `sampleRows` produces exactly
one surface update carrying the assembled two-block report. -/
theorem C6_surface_witness :
    completeSchedule (dispatched sampleRows).length [1, 0]
    ∧ (run_batch_ping sampleRows sampleProbe [1, 0]).events.filter isUpdate
        = [BatchEvent.updateSurface (String.intercalate "\n\n"
            ((dispatched sampleRows).map (fun r =>
              exceptStr (run_ping sampleProbe (rowName r) (batchIp r)))))] := by
  have hc : completeSchedule (dispatched sampleRows).length [1, 0] := by
    intro j hj
    have h2 : (dispatched sampleRows).length = 2 := by decide
    rw [h2] at hj
    interval_cases j <;> decide
  exact ⟨hc,
    (C6_placeholder_then_single_update sampleRows sampleProbe [1, 0] hc).2⟩

/-- **C7 counterexample**: with the environment user unset the constructed
command addresses `@10.0.0.1` — the user component (and its `@`
separator) is not omitted, and no argument of the command is the bare
host. -/
theorem C7_counterexample :
    launch_external_ssh none "10.0.0.1"
      = ["xterm", "-e", "-fa", "DejaVuSansMono", "ssh", "@10.0.0.1"]
    ∧ ¬ ("10.0.0.1" ∈ launch_external_ssh none "10.0.0.1") := by
  decide

/-- **C7** (amended): the environment-supplied user name is honored when
set, but when it is unset the command is still built as
`f"{username}@{ip}"` with the empty string, producing a dangling `@ip`
destination rather than omitting the login prefix. -/
theorem C7_amended_ssh_user (u ip : String) :
    sshDestination (some u) ip = u ++ "@" ++ ip
    ∧ sshDestination none ip = "@" ++ ip
    ∧ launch_external_ssh none ip
        = ["xterm", "-e", "-fa", "DejaVuSansMono", "ssh", "@" ++ ip] := by
  refine ⟨rfl, ?_, ?_⟩
  · show "" ++ "@" ++ ip = "@" ++ ip
    rw [String.empty_append]
  · show ["xterm", "-e", "-fa", "DejaVuSansMono", "ssh", "" ++ "@" ++ ip] = _
    rw [String.empty_append]

/-- **C8** (confirmed against the spec model): from a running Interactive
PTY Session, either close trigger — the background reader hitting
end-of-stream (remote process exited, no escape key involved) or the
explicit escape request — leads to one teardown that deactivates the
reader, notifies the host, and closes each PTY descriptor exactly once,
regardless of whether either descriptor's close fails; on the escape path
the process is terminated before the close. -/
theorem C8_pty_teardown_closes_both (trigger : PtyTrigger)
    (mFails sFails : Bool) :
    (ptyClose trigger ptyStart mFails sFails).masterCloses = 1
    ∧ (ptyClose trigger ptyStart mFails sFails).slaveCloses = 1
    ∧ (ptyClose trigger ptyStart mFails sFails).readTaskActive = false
    ∧ (ptyClose trigger ptyStart mFails sFails).hostCloseRequested = true
    ∧ (trigger = PtyTrigger.escapeClose →
        (ptyClose trigger ptyStart mFails sFails).procTerminated = true) := by
  cases trigger <;> simp [ptyClose, ptyTeardown, ptyStart]

/-- Witness for C8: end-of-stream teardown with a failing master close
still closes both descriptors exactly once. -/
theorem C8_pty_witness :
    (ptyClose PtyTrigger.endOfStream ptyStart true false).masterCloses = 1
    ∧ (ptyClose PtyTrigger.endOfStream ptyStart true false).slaveCloses = 1 :=
  ⟨(C8_pty_teardown_closes_both PtyTrigger.endOfStream true false).1,
   (C8_pty_teardown_closes_both PtyTrigger.endOfStream true false).2.1⟩

/-- **C9 counterexample**: a row whose address is stored only under the
lowercase `"ip"` key is displayed with that address by the table, but —
contrary to the claim — single-target command dispatch does *not* fall
back to `"ip"`: it reads the empty string, exactly like the batch probe,
which skips the row. -/
theorem C9_counterexample :
    tableIp [("ip", "10.0.0.1")] = "10.0.0.1"
    ∧ execIp [("ip", "10.0.0.1")] = ""
    ∧ batchIp [("ip", "10.0.0.1")] = ""
    ∧ dispatched [[("ip", "10.0.0.1")]] = [] := by
  decide

/-- **C9** (amended): table display, sorting and the search filter fall
back to the lowercase `"ip"` key, but both the batch probe *and*
single-target command dispatch read only the exact `"IP"` key; hence a row
whose address lives only under `"ip"` is displayed with an address yet is
silently skipped by the batch probe (no probe result), and single-target
dispatch sees an empty address for it. -/
theorem C9_amended_key_fallback (r : Row) (v : String)
    (hIP : List.lookup "IP" r = none) (hip : List.lookup "ip" r = some v) :
    tableIp r = v
    ∧ get_value r 1 = v
    ∧ filterIp r = v.toLower
    ∧ batchIp r = ""
    ∧ execIp r = ""
    ∧ dispatched [r] = []
    ∧ (∀ (probe : String → String → PingOutcome) (schedule : List Nat),
        (run_batch_ping [r] probe schedule).results = []) := by
  have hb : batchIp r = "" := by
    rw [batchIp, rowGet, hIP]
    rfl
  have hd : dispatched [r] = [] := by
    rw [dispatched, List.filter_cons, if_neg (by simp [hb])]
    rfl
  refine ⟨?_, ?_, ?_, hb, ?_, hd, ?_⟩
  · rw [tableIp, rowGet, hIP, rowGet, hip]
  · rw [get_value, if_neg (by omega), if_pos rfl, rowGet, hIP, rowGet, hip]
  · rw [filterIp, rowGet, hIP, rowGet, hip]
  · rw [execIp, rowGet, hIP]
    rfl
  · intro probe schedule
    show batchResults [r] probe schedule = []
    rw [batchResults, batchTasks, hd, List.map_nil]
    exact gatherFill_complete [] (Except.error "") schedule
      (fun j hj => absurd hj (Nat.not_lt_zero j))

/-- Witness for C9 (amended) at the concrete lowercase-only row. -/
theorem C9_amended_witness :
    List.lookup "IP" [("ip", "10.0.0.1")] = none
    ∧ List.lookup "ip" [("ip", "10.0.0.1")] = some "10.0.0.1"
    ∧ tableIp [("ip", "10.0.0.1")] = "10.0.0.1"
    ∧ batchIp [("ip", "10.0.0.1")] = "" :=
  ⟨by decide, by decide,
    (C9_amended_key_fallback [("ip", "10.0.0.1")] "10.0.0.1" (by decide)
      (by decide)).1,
    (C9_amended_key_fallback [("ip", "10.0.0.1")] "10.0.0.1" (by decide)
      (by decide)).2.2.2.1⟩

theorem action_none_of_oob (filtered : List Row) (command : String)
    (smUser : Option String) (i : Nat) (h : filtered.length ≤ i) :
    action_execute_command (some (some i)) filtered command smUser = none := by
  rw [action_execute_command]
  by_cases hemp : filtered.isEmpty
  · simp [hemp]
  · simp [hemp, h]

/-- **C10** (confirmed): `action_execute_command` returns without
launching a process or pushing a screen whenever there is no table, no
selected row, an empty filtered row set, or a cursor index at or past the
end of the filtered set; any produced effect implies the cursor index was
strictly within bounds, so the filtered list is never indexed out of
bounds. -/
theorem C10_execute_guards (table : Option (Option Nat)) (filtered : List Row)
    (command : String) (smUser : Option String) :
    (table = none → action_execute_command table filtered command smUser = none)
    ∧ (table = some none →
        action_execute_command table filtered command smUser = none)
    ∧ (filtered = [] →
        action_execute_command table filtered command smUser = none)
    ∧ (∀ i : Nat, table = some (some i) → filtered.length ≤ i →
        action_execute_command table filtered command smUser = none)
    ∧ (∀ e : ExecEffect,
        action_execute_command table filtered command smUser = some e →
        ∃ i : Nat, table = some (some i) ∧ i < filtered.length) := by
  refine ⟨?_, ?_, ?_, ?_, ?_⟩
  · rintro rfl; rfl
  · rintro rfl; rfl
  · rintro rfl
    rcases table with _ | cursor
    · rfl
    · rcases cursor with _ | i
      · rfl
      · exact action_none_of_oob [] command smUser i (Nat.zero_le i)
  · rintro i rfl hle
    exact action_none_of_oob filtered command smUser i hle
  · intro e he
    rcases table with _ | cursor
    · exact absurd he (by rw [action_execute_command]; simp)
    · rcases cursor with _ | i
      · exact absurd he (by rw [action_execute_command]; simp)
      · refine ⟨i, rfl, ?_⟩
        by_contra hlt
        rw [action_none_of_oob filtered command smUser i (by omega)] at he
        exact Option.noConfusion he

/-- Witness for C10: an out-of-range cursor aborts without any effect. -/
theorem C10_execute_witness :
    action_execute_command (some (some 5)) [[("IP", "10.0.0.1")]] "ping" none
      = none :=
  (C10_execute_guards (some (some 5)) [[("IP", "10.0.0.1")]] "ping"
    none).2.2.2.1 5 rfl (by decide)
